import Mathlib

/-!
Verification of the build-orchestration layer of `ctranslate2-rs` (`build.rs`).

The script is embedded shallowly:

* compile-time platform conditions (`cfg!(target_os = ...)`, `cfg!(feature = ...)`)
  become explicit `Target` / `Features` parameters;
* the process environment becomes a function `String → Option String`, the
  filesystem file-existence test a function `String → Bool`;
* every externally visible effect of the script (a `println!` of a cargo
  directive, a mutation of the `cmake::Config` builder, the cmake build
  invocation, the bridge compilation, a panic) becomes an `Act` in an
  ordered trace; `main` is the function producing that trace;
* the `walkdir` iteration of `link_libraries` becomes an explicit list of
  `Except` entries (`Result<DirEntry, Error>` in the source), and the loop a
  structural recursion threading the `current_dir` slot.

File names are `List Char` at the level where the source does byte slicing,
wrapped into `String`-level functions keeping the source's names.
-/

/-- The two `cfg!(target_os = "windows")` branches of the source collapse the
platform to Windows versus not-Windows for the library-name convention. -/
inductive Platform where
  | windows
  | posix
deriving DecidableEq, Repr

/-- Rust slice `&name[lo..hi]` on a byte string: defined exactly when
`lo ≤ hi ∧ hi ≤ name.len()`, a panic (modelled as `none`) otherwise. -/
def sliceRange (cs : List Char) (lo hi : Nat) : Option (List Char) :=
  if lo ≤ hi ∧ hi ≤ cs.length then some ((cs.take hi).drop lo) else none

/-- Rust `usize` subtraction: panics (modelled as `none`) on underflow. -/
def checkedSub (a b : Nat) : Option Nat :=
  if b ≤ a then some (a - b) else none

/-- `is_library` on the character list of the file name.
Not-Windows variant (src/build.rs line 137): `name.starts_with("lib") && name.ends_with(".a")`;
Windows variant (line 147): `name.ends_with(".lib")`. -/
def charIsLibrary : Platform → List Char → Bool
  | .posix, cs => "lib".toList.isPrefixOf cs && ".a".toList.isSuffixOf cs
  | .windows, cs => ".lib".toList.isSuffixOf cs

/-- `library_name` on the character list of the file name.
Not-Windows variant (line 142): `&name[3..name.len() - 2]`;
Windows variant (line 152): `&name[0..name.len() - 4]`.
The result is `none` when the slice would panic. -/
def charLibraryName : Platform → List Char → Option (List Char)
  | .posix, cs => (checkedSub cs.length 2).bind fun hi => sliceRange cs 3 hi
  | .windows, cs => (checkedSub cs.length 4).bind fun hi => sliceRange cs 0 hi

/-- `is_library` at the `&str` level of the source. -/
def is_library (p : Platform) (name : String) : Bool :=
  charIsLibrary p name.toList

/-- `library_name` at the `&str` level of the source. -/
def library_name (p : Platform) (name : String) : Option String :=
  (charLibraryName p name.toList).map List.asString

/-- A filesystem path, as its list of components: `parent` is `dropLast`,
`file_name` is `getLast?`. -/
abbrev FsPath := List String

/-- One entry yielded by the `WalkDir` iterator: its path and whether
`path.is_file()` holds. -/
structure Entry where
  path : FsPath
  isFile : Bool
deriving DecidableEq, Repr

/-- A directive emitted by `link_libraries`: a `cargo:rustc-link-search` line,
a `cargo:rustc-link-lib=static=` line, or the panic of an out-of-bounds
`library_name` slice. -/
inductive Directive where
  | searchDir (dir : FsPath)
  | staticLib (name : String)
  | sliceFault
deriving DecidableEq, Repr

/-- The `cargo:rustc-link-lib=static=` line of line 172: `library_name` on an
accepted name, a panic when its slice would be out of bounds. -/
def libDirective (p : Platform) (name : String) : Directive :=
  match library_name p name with
  | some l => Directive.staticLib l
  | none => Directive.sliceFault

/-- The loop body of `link_libraries` (lines 157-175), threading the mutable
`current_dir : Option<PathBuf>` slot.  For a file entry whose name passes
`is_library`, the parent directory (always `Some` for a path with a file
name; modelled as `dropLast`) is registered as a search path exactly when it
differs from `current_dir`, and one static link directive follows. -/
def linkLoop (p : Platform) : Option FsPath → List Entry → List Directive
  | _, [] => []
  | st, e :: es =>
    if e.isFile then
      match e.path.getLast? with
      | some name =>
        if is_library p name then
          if some e.path.dropLast ≠ st then
            Directive.searchDir e.path.dropLast :: libDirective p name ::
              linkLoop p (some e.path.dropLast) es
          else
            libDirective p name :: linkLoop p st es
        else linkLoop p st es
      | none => linkLoop p st es
    else linkLoop p st es

/-- `link_libraries` (line 156): the walkdir iterator yields
`Result<DirEntry, Error>`; `filter_map(Result::ok)` drops the errors, then the
loop runs with `current_dir` starting at `None`. -/
def link_libraries (p : Platform) (entries : List (Except Unit Entry)) :
    List Directive :=
  linkLoop p none (entries.filterMap Except.toOption)

/-- The search-path registrations of a directive list, in order. -/
def searchDirsOf (ds : List Directive) : List FsPath :=
  ds.filterMap fun d =>
    match d with
    | .searchDir dir => some dir
    | _ => none

/-- The static link directives of a directive list, in order. -/
def staticLibsOf (ds : List Directive) : List String :=
  ds.filterMap fun d =>
    match d with
    | .staticLib n => some n
    | _ => none

/-- The entries of the walk that are regular files whose names pass
`is_library`, in walk order (their paths). -/
def libraryEntries (p : Platform) (es : List Entry) : List FsPath :=
  es.filterMap fun e =>
    if e.isFile then
      match e.path.getLast? with
      | some name => if is_library p name then some e.path else none
      | none => none
    else none

/-- Single-slot adjacency deduplication: keep an element exactly when it
differs from the last kept one (the slot starting at `st`). -/
def dedupAdj : Option FsPath → List FsPath → List FsPath
  | _, [] => []
  | st, d :: ds =>
    if some d ≠ st then d :: dedupAdj (some d) ds else dedupAdj st ds

/-- Target platform of the build, as the `cfg!` tests of the source see it:
the operating system and whether the architecture is aarch64. -/
inductive TargetOs where
  | windows
  | macos
  | linux
deriving DecidableEq, Repr

structure Target where
  os : TargetOs
  aarch64 : Bool
deriving DecidableEq, Repr

/-- The library-name convention the target follows: the source compiles the
Windows variants of `is_library` and `library_name` under
`cfg!(target_os = "windows")` and the `lib*.a` variants otherwise. -/
def Target.platform (t : Target) : Platform :=
  if t.os = .windows then .windows else .posix

/-- `PATH_SEPARATOR` (lines 15-19): a semicolon on Windows, a colon
elsewhere. -/
def PATH_SEPARATOR (t : Target) : Char :=
  if t.os = .windows then ';' else ':'

/-- The capability flags (`cfg!(feature = ...)`) consulted by the script. -/
structure Features where
  cuda : Bool
  cudnn : Bool
  cudaDynamicLoading : Bool
  mkl : Bool
  openblas : Bool
  ruy : Bool
  accelerate : Bool
  tensorParallel : Bool
  dnnl : Bool
  openmpRuntime : Bool
  flashAttention : Bool
deriving DecidableEq, Repr

/-- The process environment: each variable's value, if set. -/
abbrev Env := String → Option String

/-- The kind of a `cargo:rustc-link-lib` directive. -/
inductive LinkKind where
  | static
  | dylib
  | framework
deriving DecidableEq, Repr

/-- The configuration handed to `cxx_build` for the bridge compilation
(lines 117-133). -/
structure BridgeConfig where
  bridges : List String
  files : List String
  includeDir : String
  std : String
  staticCrt : Bool
  flagIfSupported : List String
  outName : String
deriving DecidableEq, Repr

/-- One observable action of the build script, in program order: a cargo
directive printed to stdout, a mutation of the `cmake::Config` builder, the
cmake build invocation, the bridge compilation, or a panic (which ends the
trace). -/
inductive Act where
  | rerunChanged (path : String)
  | rerunEnvChanged (key : String)
  | linkSearch (dir : String)
  | linkLib (kind : LinkKind) (name : String)
  | linkArg (arg : String)
  | warning (msg : String)
  | cmakeDefine (key value : String)
  | cmakeProfile (profile : String)
  | cmakeCxxflag (flag : String)
  | cmakeStaticCrt (enabled : Bool)
  | cmakeBuild
  | bridgeCompile (cfg : BridgeConfig)
  | fatal (msg : String)
deriving DecidableEq, Repr

/-- Rust `str::split(char)` on the character list: the segments between the
separators, in order; the empty string splits to one empty segment, and each
separator starts a new segment. -/
def splitChar (sep : Char) : List Char → List (List Char)
  | [] => [[]]
  | c :: cs =>
    match splitChar sep cs with
    | [] => [[]]
    | seg :: segs =>
      if c = sep then [] :: seg :: segs else (c :: seg) :: segs

/-- Rust `str::split(PATH_SEPARATOR)` at the `String` level. -/
def splitOnSeparator (sep : Char) (v : String) : List String :=
  (splitChar sep v.toList).map List.asString

/-- `add_search_paths` (lines 21-31): print the rerun-if-env-changed line;
if the variable is set, split its value on the platform separator, drop the
empty segments and register each remaining segment, in order. -/
def add_search_paths (sep : Char) (env : Env) (key : String) : List Act :=
  Act.rerunEnvChanged key ::
    match env key with
    | some libraryPath =>
        (((splitOnSeparator sep libraryPath).filter
            fun v => ¬ v.isEmpty)).map Act.linkSearch
    | none => []

/-- The `env_vars` array of `cuda_root` (lines 193-198), in priority
order. -/
def cudaEnvVarNames : List String :=
  ["CUDA_PATH", "CUDA_ROOT", "CUDA_TOOLKIT_ROOT_DIR", "CUDNN_LIB"]

/-- The `roots` array of `cuda_root` (lines 204-211): the fixed conventional
installation paths. -/
def cudaDefaultRoots : List String :=
  ["/usr", "/usr/local/cuda", "/opt/cuda", "/usr/lib/cuda",
   "C:/Program Files/NVIDIA GPU Computing Toolkit", "C:/CUDA"]

/-- The candidate list of `cuda_root`: the set environment variables' values
in priority order (`.map(std::env::var).filter_map(Result::ok)`), chained
with the conventional roots. -/
def cudaCandidates (env : Env) : List String :=
  cudaEnvVarNames.filterMap env ++ cudaDefaultRoots

/-- `cuda_root` (lines 192-217): the first candidate under which
`include/cuda.h` is a file.  `PathBuf::join` with the relative components is
rendered with slashes. -/
def cuda_root (env : Env) (isFile : String → Bool) : Option String :=
  (cudaCandidates env).find? fun path =>
    isFile (path ++ "/include/cuda.h")

/-- The fixed baseline configuration of the `cmake::Config` builder
(lines 42-47). -/
def baselineDefines : List Act :=
  [.cmakeDefine "BUILD_CLI" "OFF",
   .cmakeDefine "BUILD_SHARED_LIBS" "OFF",
   .cmakeDefine "WITH_MKL" "OFF",
   .cmakeDefine "OPENMP_RUNTIME" "NONE",
   .cmakeDefine "CMAKE_POLICY_VERSION_MINIMUM" "3.5"]

/-- The Windows-only toolchain block (lines 48-56): the crt-static warning
when `CARGO_ENCODED_RUSTFLAGS` lacks the flag, the /FORCE:MULTIPLE link arg,
and the Release profile, /EHsc and static CRT on the cmake builder. -/
def windowsBlock (t : Target) (env : Env) : List Act :=
  if t.os = .windows then
    let rustflags := (env "CARGO_ENCODED_RUSTFLAGS").getD ""
    (if ¬ ("target-feature=+crt-static".toList <:+: rustflags.toList)
      then [Act.warning
        "For Windows compilation, set RUSTFLAGS=-C target-feature=+crt-static."]
      else [])
    ++ [.linkArg "/FORCE:MULTIPLE", .cmakeProfile "Release",
        .cmakeCxxflag "/EHsc", .cmakeStaticCrt true]
  else []

/-- Everything `main` does before the cuda feature gate (lines 34-56). -/
def preTrace (t : Target) (env : Env) : List Act :=
  [.rerunChanged "build.rs", .rerunChanged "src/sys", .rerunChanged "include",
   .rerunChanged "CTranslate2"]
  ++ add_search_paths (PATH_SEPARATOR t) env "LIBRARY_PATH"
  ++ add_search_paths (PATH_SEPARATOR t) env "CMAKE_LIBRARY_PATH"
  ++ baselineDefines
  ++ windowsBlock t env

/-- The body of the cuda feature gate once a root was found (lines 60-81):
cmake definitions, the three toolkit search paths, the static cuda runtime,
the optional cudnn link, and either the dynamic-loading definition or the
platform-specific static math libraries. -/
def cudaBlock (t : Target) (f : Features) (root : String) : List Act :=
  [.cmakeDefine "WITH_CUDA" "ON",
   .cmakeDefine "CUDA_TOOLKIT_ROOT_DIR" root,
   .linkSearch (root ++ "/lib"),
   .linkSearch (root ++ "/lib64"),
   .linkSearch (root ++ "/lib/x64"),
   .linkLib .static "cudart_static"]
  ++ (if f.cudnn then
        [.cmakeDefine "WITH_CUDNN" "ON", .linkLib .dylib "cudnn"]
      else [])
  ++ (if f.cudaDynamicLoading then
        [.cmakeDefine "CUDA_DYNAMIC_LOADING" "ON"]
      else if t.os = .windows then
        [.linkLib .static "cublas", .linkLib .static "cublasLt"]
      else
        [.linkLib .static "cublas_static", .linkLib .static "cublasLt_static",
         .linkLib .static "culibos"])

/-- The macOS/aarch64 architecture definition (lines 83-85). -/
def macosBlock (t : Target) : List Act :=
  if t.os = .macos ∧ t.aarch64 then
    [.cmakeDefine "CMAKE_OSX_ARCHITECTURES" "arm64"]
  else []

/-- The remaining feature gates (lines 87-112), in source order. -/
def featureBlock (f : Features) : List Act :=
  (if f.mkl then [Act.cmakeDefine "WITH_MKL" "ON"] else [])
  ++ (if f.openblas then
        [.linkLib .static "openblas", .cmakeDefine "WITH_OPENBLAS" "ON"]
      else [])
  ++ (if f.ruy then [Act.cmakeDefine "WITH_RUY" "ON"] else [])
  ++ (if f.accelerate then
        [.linkLib .framework "Accelerate", .cmakeDefine "WITH_ACCELERATE" "ON"]
      else [])
  ++ (if f.tensorParallel then
        [Act.cmakeDefine "WITH_TENSOR_PARALLEL" "ON"] else [])
  ++ (if f.dnnl then [Act.cmakeDefine "WITH_DNNL" "ON"] else [])
  ++ (if f.openmpRuntime then
        [Act.cmakeDefine "OPENMP_RUNTIME" "COMP"] else [])
  ++ (if f.flashAttention then
        [Act.cmakeDefine "WITH_FLASH_ATTN" "ON"] else [])

/-- The bridge configuration (lines 117-133): the fixed file lists, C++17,
static CRT exactly on Windows, and /EHsc requested via flag_if_supported. -/
def bridgeCfg (t : Target) : BridgeConfig where
  bridges := ["src/sys/types.rs", "src/sys/config.rs", "src/sys/scoring.rs",
    "src/sys/translator.rs", "src/sys/generator.rs", "src/sys/storage_view.rs",
    "src/sys/whisper.rs"]
  files := ["src/sys/translator.cpp", "src/sys/generator.cpp",
    "src/sys/whisper.cpp"]
  includeDir := "CTranslate2/include"
  std := "c++17"
  staticCrt := t.os = .windows
  flagIfSupported := ["/EHsc"]
  outName := "ct2rs"

/-- Rendering of a walk directive into the printed cargo line; the path is
displayed with slash-joined components. -/
def renderDirective : Directive → Act
  | .searchDir dir => .linkSearch (String.intercalate "/" dir)
  | .staticLib name => .linkLib .static name
  | .sliceFault => .fatal "byte index out of bounds"

/-- Everything `main` does after the cuda feature gate succeeded or was
skipped (lines 83-133): the macOS block, the feature gates, the cmake build,
the walk of the build output directory (whose walkdir entries are the
`entries` parameter), and the bridge compilation. -/
def postTrace (t : Target) (f : Features)
    (entries : List (Except Unit Entry)) : List Act :=
  macosBlock t
  ++ featureBlock f
  ++ [Act.cmakeBuild]
  ++ (link_libraries t.platform entries).map renderDirective
  ++ [Act.bridgeCompile (bridgeCfg t)]

/-- `main` (lines 33-134) as the trace of its actions.  When the cuda feature
is enabled and `cuda_root` finds nothing, `.expect` panics and the trace ends
with the fatal message before anything else happens. -/
def mainTrace (t : Target) (f : Features) (env : Env)
    (isFile : String → Bool) (entries : List (Except Unit Entry)) :
    List Act :=
  preTrace t env
  ++ if f.cuda then
      match cuda_root env isFile with
      | none => [Act.fatal "CUDA_TOOLKIT_ROOT_DIR is not specified"]
      | some cuda => cudaBlock t f cuda ++ postTrace t f entries
    else postTrace t f entries

/-! ### Helper lemmas about the library-name convention -/

theorem charIsLibrary_posix_length {cs : List Char}
    (h : charIsLibrary .posix cs = true) : 5 ≤ cs.length := by
  simp only [charIsLibrary, Bool.and_eq_true, List.isPrefixOf_iff_prefix,
    List.isSuffixOf_iff_suffix] at h
  obtain ⟨⟨r, hr⟩, ⟨t, ht⟩⟩ := h
  have hlib : ("lib".toList : List Char) = ['l', 'i', 'b'] := rfl
  have hsuf : ((".a").toList : List Char) = ['.', 'a'] := rfl
  rw [hlib] at hr
  rw [hsuf] at ht
  by_contra hlt
  push_neg at hlt
  rcases r with _ | ⟨x, r⟩
  · have h1 : cs.getLast? = some 'b' := by rw [← hr]; rfl
    have h2 : cs.getLast? = some 'a' := by
      rw [← ht]
      have hsplit : t ++ ['.', 'a'] = (t ++ ['.']) ++ ['a'] := by simp
      rw [hsplit, List.getLast?_concat]
    rw [h1] at h2
    simp at h2
  · rcases r with _ | ⟨y, r⟩
    · have h1 : cs.dropLast.getLast? = some 'b' := by rw [← hr]; rfl
      have h2 : cs.dropLast.getLast? = some '.' := by
        rw [← ht]
        have hsplit : t ++ ['.', 'a'] = (t ++ ['.']) ++ ['a'] := by simp
        rw [hsplit, List.dropLast_concat, List.getLast?_concat]
      rw [h1] at h2
      simp at h2
    · rw [← hr] at hlt
      simp at hlt
      omega

theorem charIsLibrary_windows_length {cs : List Char}
    (h : charIsLibrary .windows cs = true) : 4 ≤ cs.length := by
  simp only [charIsLibrary, List.isSuffixOf_iff_suffix] at h
  have := h.length_le
  simpa using this

theorem charLibraryName_isSome {p : Platform} {cs : List Char}
    (h : charIsLibrary p cs = true) : (charLibraryName p cs).isSome = true := by
  cases p with
  | posix =>
    have h5 := charIsLibrary_posix_length h
    simp only [charLibraryName, checkedSub, sliceRange]
    rw [if_pos (by omega), Option.some_bind]
    rw [if_pos (by constructor <;> omega)]
    rfl
  | windows =>
    have h4 := charIsLibrary_windows_length h
    simp only [charLibraryName, checkedSub, sliceRange]
    rw [if_pos (by omega), Option.some_bind]
    rw [if_pos (by constructor <;> omega)]
    rfl

theorem library_name_isSome {p : Platform} {name : String}
    (h : is_library p name = true) : (library_name p name).isSome = true := by
  have hc : (charLibraryName p name.toList).isSome = true :=
    charLibraryName_isSome h
  unfold library_name
  cases hcl : charLibraryName p name.toList with
  | none => rw [hcl] at hc; simp at hc
  | some l => rfl

theorem libDirective_of_is_library {p : Platform} {name : String}
    (h : is_library p name = true) :
    ∃ l, library_name p name = some l ∧ libDirective p name = .staticLib l := by
  obtain ⟨l, hl⟩ := Option.isSome_iff_exists.mp (library_name_isSome h)
  exact ⟨l, hl, by simp [libDirective, hl]⟩

theorem sliceFault_not_mem_linkLoop (p : Platform) :
    ∀ (es : List Entry) (st : Option FsPath),
      Directive.sliceFault ∉ linkLoop p st es := by
  intro es
  induction es with
  | nil => intro st; simp [linkLoop]
  | cons e es ih =>
    intro st
    rw [linkLoop]
    split
    · split
      · rename_i name hname
        split
        · rename_i hl
          obtain ⟨l, _, hd⟩ := libDirective_of_is_library hl
          split
          · intro hmem
            simp only [hd, List.mem_cons] at hmem
            rcases hmem with h1 | h1 | h1
            · cases h1
            · cases h1
            · exact ih _ h1
          · intro hmem
            simp only [hd, List.mem_cons] at hmem
            rcases hmem with h1 | h1
            · cases h1
            · exact ih _ h1
        · exact ih st
      · exact ih st
    · exact ih st

/-! ### Structure of the discovery walk -/

theorem linkLoop_cons_not_file {p st e es} (hf : e.isFile = false) :
    linkLoop p st (e :: es) = linkLoop p st es := by
  rw [linkLoop, hf]
  rfl

theorem linkLoop_cons_no_name {p st e es} (hf : e.isFile = true)
    (hname : e.path.getLast? = none) :
    linkLoop p st (e :: es) = linkLoop p st es := by
  rw [linkLoop, hf, hname]
  rfl

theorem linkLoop_cons_not_lib {p st e es name} (hf : e.isFile = true)
    (hname : e.path.getLast? = some name) (hl : is_library p name = false) :
    linkLoop p st (e :: es) = linkLoop p st es := by
  rw [linkLoop, hf, hname]
  simp [hl]

theorem linkLoop_cons_lib {p st e es name} (hf : e.isFile = true)
    (hname : e.path.getLast? = some name) (hl : is_library p name = true) :
    linkLoop p st (e :: es) =
      (if some e.path.dropLast ≠ st
        then Directive.searchDir e.path.dropLast ::
          libDirective p name :: linkLoop p (some e.path.dropLast) es
        else libDirective p name :: linkLoop p st es) := by
  rw [linkLoop, hf, hname]
  simp [hl]

theorem libraryEntries_cons_not_file {p e es} (hf : e.isFile = false) :
    libraryEntries p (e :: es) = libraryEntries p es := by
  simp [libraryEntries, List.filterMap_cons, hf]

theorem libraryEntries_cons_no_name {p e es} (hf : e.isFile = true)
    (hname : e.path.getLast? = none) :
    libraryEntries p (e :: es) = libraryEntries p es := by
  simp [libraryEntries, List.filterMap_cons, hf, hname]

theorem libraryEntries_cons_not_lib {p e es name} (hf : e.isFile = true)
    (hname : e.path.getLast? = some name) (hl : is_library p name = false) :
    libraryEntries p (e :: es) = libraryEntries p es := by
  simp [libraryEntries, List.filterMap_cons, hf, hname, hl]

theorem libraryEntries_cons_lib {p e es name} (hf : e.isFile = true)
    (hname : e.path.getLast? = some name) (hl : is_library p name = true) :
    libraryEntries p (e :: es) = e.path :: libraryEntries p es := by
  simp [libraryEntries, List.filterMap_cons, hf, hname, hl]

theorem filterMap_cons_some (f : α → Option β) (a : α) (as : List α) {b : β}
    (h : f a = some b) :
    List.filterMap f (a :: as) = b :: List.filterMap f as := by
  rw [List.filterMap_cons, h]

theorem linkLoop_libs (p : Platform) :
    ∀ (es : List Entry) (st : Option FsPath),
      staticLibsOf (linkLoop p st es) =
        (libraryEntries p es).filterMap
          fun path => path.getLast?.bind (library_name p) := by
  intro es
  induction es with
  | nil => intro st; rfl
  | cons e es ih =>
    intro st
    by_cases hf : e.isFile = true
    · cases hname : e.path.getLast? with
      | none =>
        rw [linkLoop_cons_no_name hf hname,
          libraryEntries_cons_no_name hf hname]
        exact ih st
      | some name =>
        by_cases hl : is_library p name = true
        · obtain ⟨l, hln, hd⟩ := libDirective_of_is_library hl
          have hg : (e.path.getLast?).bind (library_name p) = some l := by
            rw [hname, Option.some_bind, hln]
          rw [linkLoop_cons_lib hf hname hl,
            libraryEntries_cons_lib hf hname hl,
            filterMap_cons_some
              (fun path => (List.getLast? path).bind (library_name p))
              e.path (libraryEntries p es) hg]
          by_cases hp : some e.path.dropLast ≠ st
          · rw [if_pos hp, hd]
            show l :: staticLibsOf (linkLoop p (some e.path.dropLast) es) =
              l :: _
            rw [ih]
          · rw [if_neg hp, hd]
            show l :: staticLibsOf (linkLoop p st es) = l :: _
            rw [ih]
        · rw [Bool.not_eq_true] at hl
          rw [linkLoop_cons_not_lib hf hname hl,
            libraryEntries_cons_not_lib hf hname hl]
          exact ih st
    · rw [Bool.not_eq_true] at hf
      rw [linkLoop_cons_not_file hf, libraryEntries_cons_not_file hf]
      exact ih st

theorem linkLoop_dirs (p : Platform) :
    ∀ (es : List Entry) (st : Option FsPath),
      searchDirsOf (linkLoop p st es) =
        dedupAdj st ((libraryEntries p es).map List.dropLast) := by
  intro es
  induction es with
  | nil => intro st; rfl
  | cons e es ih =>
    intro st
    by_cases hf : e.isFile = true
    · cases hname : e.path.getLast? with
      | none =>
        rw [linkLoop_cons_no_name hf hname,
          libraryEntries_cons_no_name hf hname]
        exact ih st
      | some name =>
        by_cases hl : is_library p name = true
        · obtain ⟨l, hln, hd⟩ := libDirective_of_is_library hl
          rw [linkLoop_cons_lib hf hname hl,
            libraryEntries_cons_lib hf hname hl, List.map_cons, dedupAdj]
          by_cases hp : some e.path.dropLast ≠ st
          · rw [if_pos hp, if_pos hp, hd]
            show e.path.dropLast ::
              searchDirsOf (linkLoop p (some e.path.dropLast) es) = _
            rw [ih]
          · rw [if_neg hp, if_neg hp, hd]
            show searchDirsOf (linkLoop p st es) = _
            rw [ih]
        · rw [Bool.not_eq_true] at hl
          rw [linkLoop_cons_not_lib hf hname hl,
            libraryEntries_cons_not_lib hf hname hl]
          exact ih st
    · rw [Bool.not_eq_true] at hf
      rw [linkLoop_cons_not_file hf, libraryEntries_cons_not_file hf]
      exact ih st

/-- The synthetic walk of the spec: `libfoo.a` and `libbar.a` live in the
directory `build`, `libbaz.a` in `build/sub`; the depth-first walk meets
`build/sub` between the two `build` files, so the two occurrences of
`build` are not adjacent. -/
def exampleWalk : List (Except Unit Entry) :=
  [Except.ok ⟨["build"], false⟩,
   Except.ok ⟨["build", "libfoo.a"], true⟩,
   Except.ok ⟨["build", "sub"], false⟩,
   Except.ok ⟨["build", "sub", "libbaz.a"], true⟩,
   Except.ok ⟨["build", "libbar.a"], true⟩]

/-- C1: `link_libraries` walks the tree and emits one static link directive
per matching file in walk order (their names are the stripped names of the
matching files, in the walk's order), registering a file's parent directory
exactly when it differs from the immediately preceding registered directory
(single-slot adjacency dedup); on the spec's synthetic tree it emits exactly
three link directives (foo, baz, bar in walk order — the set foo, bar, baz)
and three search-path registrations, the third repeating the first. -/
theorem c1_discovery_walk :
    (∀ (p : Platform) (entries : List (Except Unit Entry)),
      staticLibsOf (link_libraries p entries) =
        ((libraryEntries p (entries.filterMap Except.toOption)).filterMap
          fun path => path.getLast?.bind (library_name p)) ∧
      searchDirsOf (link_libraries p entries) =
        dedupAdj none
          ((libraryEntries p (entries.filterMap Except.toOption)).map
            List.dropLast))
  ∧ link_libraries .posix exampleWalk =
      [.searchDir ["build"], .staticLib "foo",
       .searchDir ["build", "sub"], .staticLib "baz",
       .searchDir ["build"], .staticLib "bar"]
  ∧ staticLibsOf (link_libraries .posix exampleWalk) = ["foo", "baz", "bar"]
  ∧ (staticLibsOf (link_libraries .posix exampleWalk)).Perm
      ["foo", "bar", "baz"]
  ∧ searchDirsOf (link_libraries .posix exampleWalk) =
      [["build"], ["build", "sub"], ["build"]] := by
  refine ⟨fun p entries => ⟨linkLoop_libs p _ none, linkLoop_dirs p _ none⟩,
    ?_, ?_, ?_, ?_⟩ <;> decide

/-- C6: the logical link name strips the platform affixes: `mylib.lib`
yields `mylib` on Windows, `libmylib.a` yields the same `mylib` under the
`lib*.a` convention, and the emitted static link directive carries exactly
that name. -/
theorem c6_logical_link_name :
    is_library .windows "mylib.lib" = true
  ∧ library_name .windows "mylib.lib" = some "mylib"
  ∧ is_library .posix "libmylib.a" = true
  ∧ library_name .posix "libmylib.a" = some "mylib"
  ∧ libDirective .windows "mylib.lib" = .staticLib "mylib"
  ∧ libDirective .posix "libmylib.a" = .staticLib "mylib" := by
  decide

/-- C9: an erroneous walk entry (`Err` from walkdir) is skipped silently:
deleting it from the entry stream leaves the emitted directives unchanged,
wherever it sits — the remaining entries are still processed and nothing
aborts. -/
theorem c9_walk_error_skipped (p : Platform)
    (l1 l2 : List (Except Unit Entry)) :
    link_libraries p (l1 ++ Except.error () :: l2) =
      link_libraries p (l1 ++ l2) := by
  simp [link_libraries, List.filterMap_append, List.filterMap_cons,
    Except.toOption]

/-- C10: a name accepted by `is_library` has length at least 5 under the
`lib*.a` convention and at least 4 under the `.lib` convention, so the
`library_name` slice bounds are always valid (the slice never panics); the
degenerate names `lib.a` and `.lib` yield the empty link name, and the walk
emits an empty-named static link directive for them rather than an error;
no slice panic ever occurs during a walk. -/
theorem c10_library_name_no_panic :
    (∀ cs : List Char, charIsLibrary .posix cs = true →
        5 ≤ cs.length ∧ (charLibraryName .posix cs).isSome = true)
  ∧ (∀ cs : List Char, charIsLibrary .windows cs = true →
        4 ≤ cs.length ∧ (charLibraryName .windows cs).isSome = true)
  ∧ library_name .posix "lib.a" = some ""
  ∧ library_name .windows ".lib" = some ""
  ∧ link_libraries .posix [Except.ok ⟨["build", "lib.a"], true⟩] =
      [.searchDir ["build"], .staticLib ""]
  ∧ link_libraries .windows [Except.ok ⟨["build", ".lib"], true⟩] =
      [.searchDir ["build"], .staticLib ""]
  ∧ ∀ (p : Platform) (entries : List (Except Unit Entry)),
      Directive.sliceFault ∉ link_libraries p entries := by
  refine ⟨fun cs h => ⟨charIsLibrary_posix_length h,
      charLibraryName_isSome h⟩,
    fun cs h => ⟨charIsLibrary_windows_length h,
      charLibraryName_isSome h⟩,
    by decide, by decide, by decide, by decide,
    fun p entries => sliceFault_not_mem_linkLoop p _ none⟩

/-- Witness for C10 at the concrete accepted names `libfoo.a` and
`foo.lib`. -/
theorem c10_witness :
    (5 ≤ ("libfoo.a".toList).length
      ∧ (charLibraryName .posix "libfoo.a".toList).isSome = true)
  ∧ (4 ≤ ("foo.lib".toList).length
      ∧ (charLibraryName .windows "foo.lib".toList).isSome = true) :=
  ⟨c10_library_name_no_panic.1 "libfoo.a".toList (by decide),
   c10_library_name_no_panic.2.1 "foo.lib".toList (by decide)⟩

/-- C4: `cuda_root` tries the environment variables CUDA_PATH, CUDA_ROOT,
CUDA_TOOLKIT_ROOT_DIR, CUDNN_LIB in that order (unset ones skipped), then
the fixed conventional paths, and returns the first candidate under which
`include/cuda.h` is a file: a returned root passes the marker test and every
candidate before it fails it; the result is `none` exactly when every
candidate fails; a set CUDA_PATH heads the candidate list, and with no
variable set the candidates are exactly the conventional paths. -/
theorem c4_cuda_root_first_match (env : Env) (isFile : String → Bool) :
    (∀ r, cuda_root env isFile = some r →
      isFile (r ++ "/include/cuda.h") = true ∧
      ∃ pre suf, cudaCandidates env = pre ++ r :: suf ∧
        ∀ c ∈ pre, isFile (c ++ "/include/cuda.h") = false)
  ∧ (cuda_root env isFile = none ↔
      ∀ c ∈ cudaCandidates env, isFile (c ++ "/include/cuda.h") = false)
  ∧ (∀ v, env "CUDA_PATH" = some v →
      cudaCandidates env = v ::
        (["CUDA_ROOT", "CUDA_TOOLKIT_ROOT_DIR", "CUDNN_LIB"].filterMap env
          ++ cudaDefaultRoots))
  ∧ (env "CUDA_PATH" = none →
      cudaCandidates env =
        ["CUDA_ROOT", "CUDA_TOOLKIT_ROOT_DIR", "CUDNN_LIB"].filterMap env
          ++ cudaDefaultRoots)
  ∧ cudaCandidates (fun _ => none) = cudaDefaultRoots := by
  refine ⟨?_, ?_, ?_, ?_, by rfl⟩
  · intro r hr
    rw [cuda_root, List.find?_eq_some] at hr
    obtain ⟨hpass, pre, suf, hsplit, hpre⟩ := hr
    refine ⟨hpass, pre, suf, hsplit, fun c hc => ?_⟩
    have := hpre c hc
    simpa using this
  · rw [cuda_root, List.find?_eq_none]
    constructor
    · intro h c hc
      have := h c hc
      simpa using this
    · intro h c hc
      simp [h c hc]
  · intro v hv
    simp [cudaCandidates, cudaEnvVarNames, List.filterMap_cons, hv]
  · intro hv
    simp [cudaCandidates, cudaEnvVarNames, List.filterMap_cons, hv]

/-- A concrete environment with only CUDA_ROOT set. -/
def env0 : Env := fun k => if k == "CUDA_ROOT" then some "/toolkit" else none

/-- A concrete filesystem containing exactly the marker file of `env0`'s
toolkit. -/
def isFile0 : String → Bool := fun s => s == "/toolkit/include/cuda.h"

/-- Witness for C4: a concrete environment with only CUDA_ROOT set and a
filesystem containing exactly its marker file. -/
theorem c4_witness :
    isFile0 ("/toolkit" ++ "/include/cuda.h") = true ∧
      ∃ pre suf, cudaCandidates env0 = pre ++ "/toolkit" :: suf ∧
        ∀ c ∈ pre, isFile0 (c ++ "/include/cuda.h") = false :=
  (c4_cuda_root_first_match env0 isFile0).1 "/toolkit" (by decide)

/-- C7: for a set path-list variable, `add_search_paths` splits the value on
the platform separator (semicolon on Windows, colon elsewhere), discards the
empty segments and registers every surviving segment in original order with
no deduplication (the duplicated segment `a` of `a::a:b` is registered
twice); every registered segment is non-empty and the surviving segments are
a sublist (order preserved) of the split; an unset variable registers
nothing and only prints the rerun line. -/
theorem c7_search_path_resolver (sep : Char) (env : Env) (key : String) :
    (env key = none → add_search_paths sep env key = [Act.rerunEnvChanged key])
  ∧ (∀ v, env key = some v →
      add_search_paths sep env key =
        Act.rerunEnvChanged key ::
          (((splitOnSeparator sep v).filter fun s => ¬ s.isEmpty).map
            Act.linkSearch))
  ∧ (∀ v, List.Sublist
      ((splitOnSeparator sep v).filter fun s => ¬ s.isEmpty)
      (splitOnSeparator sep v))
  ∧ (∀ v s, env key = some v →
      Act.linkSearch s ∈ add_search_paths sep env key → s.isEmpty = false)
  ∧ PATH_SEPARATOR ⟨.windows, false⟩ = ';'
  ∧ PATH_SEPARATOR ⟨.macos, false⟩ = ':'
  ∧ PATH_SEPARATOR ⟨.linux, false⟩ = ':'
  ∧ add_search_paths ':' (fun _ => some "a::a:b") "LIBRARY_PATH" =
      [Act.rerunEnvChanged "LIBRARY_PATH", Act.linkSearch "a",
       Act.linkSearch "a", Act.linkSearch "b"] := by
  refine ⟨?_, ?_, ?_, ?_, by decide, by decide, by decide, by decide⟩
  · intro h
    rw [add_search_paths, h]
  · intro v hv
    rw [add_search_paths, hv]
  · intro v
    exact List.filter_sublist _
  · intro v s hv hmem
    rw [add_search_paths, hv] at hmem
    simp only [List.mem_cons] at hmem
    rcases hmem with h | h
    · cases h
    · obtain ⟨x, hx, hxs⟩ := List.mem_map.mp h
      cases hxs
      have := (List.mem_filter.mp hx).2
      simpa using this

/-- Witness for C7 at a concrete set variable. -/
theorem c7_witness :
    add_search_paths ':' (fun _ => some "a::b") "K" =
      Act.rerunEnvChanged "K" ::
        (((splitOnSeparator ':' "a::b").filter fun s => ¬ s.isEmpty).map
          Act.linkSearch) :=
  (c7_search_path_resolver ':' (fun _ => some "a::b") "K").2.1 "a::b" rfl

/-! ### The cmake configuration mapping of the trace -/

/-- The `cmake.define` calls of a trace, in call order. -/
def definesOf (tr : List Act) : List (String × String) :=
  tr.filterMap fun a =>
    match a with
    | .cmakeDefine k v => some (k, v)
    | _ => none

/-- The effective value of a configuration key: cmake passes every `-D` in
call order and the last writer wins. -/
def configValue (key : String) (tr : List Act) : Option String :=
  (((definesOf tr).filter fun kv => kv.1 == key).getLast?).map Prod.snd

theorem definesOf_append (l1 l2 : List Act) :
    definesOf (l1 ++ l2) = definesOf l1 ++ definesOf l2 := by
  simp [definesOf, List.filterMap_append]

theorem definesOf_add_search_paths (sep : Char) (env : Env) (key : String) :
    definesOf (add_search_paths sep env key) = [] := by
  rw [add_search_paths]
  cases env key <;> simp [definesOf, List.mem_map]

theorem definesOf_windowsBlock (t : Target) (env : Env) :
    definesOf (windowsBlock t env) = [] := by
  rw [windowsBlock]
  split
  · rw [definesOf_append]
    split <;> rfl
  · rfl

theorem definesOf_preTrace (t : Target) (env : Env) :
    definesOf (preTrace t env) =
      [("BUILD_CLI", "OFF"), ("BUILD_SHARED_LIBS", "OFF"),
       ("WITH_MKL", "OFF"), ("OPENMP_RUNTIME", "NONE"),
       ("CMAKE_POLICY_VERSION_MINIMUM", "3.5")] := by
  rw [preTrace, definesOf_append, definesOf_append, definesOf_append,
    definesOf_append, definesOf_add_search_paths,
    definesOf_add_search_paths, definesOf_windowsBlock]
  rfl

theorem definesOf_cudaBlock (t : Target) (f : Features) (root : String) :
    definesOf (cudaBlock t f root) =
      [("WITH_CUDA", "ON"), ("CUDA_TOOLKIT_ROOT_DIR", root)]
      ++ (if f.cudnn then [("WITH_CUDNN", "ON")] else [])
      ++ (if f.cudaDynamicLoading then [("CUDA_DYNAMIC_LOADING", "ON")]
          else []) := by
  rw [cudaBlock, definesOf_append, definesOf_append]
  have hB : definesOf
      (if f.cudnn then
        [Act.cmakeDefine "WITH_CUDNN" "ON", Act.linkLib .dylib "cudnn"]
      else []) = (if f.cudnn then [("WITH_CUDNN", "ON")] else []) := by
    cases hc : f.cudnn <;> simp [hc, definesOf]
  have hC : definesOf
      (if f.cudaDynamicLoading then
        [Act.cmakeDefine "CUDA_DYNAMIC_LOADING" "ON"]
      else if t.os = .windows then
        [Act.linkLib .static "cublas", Act.linkLib .static "cublasLt"]
      else
        [Act.linkLib .static "cublas_static",
         Act.linkLib .static "cublasLt_static",
         Act.linkLib .static "culibos"]) =
      (if f.cudaDynamicLoading then [("CUDA_DYNAMIC_LOADING", "ON")]
        else []) := by
    cases hd : f.cudaDynamicLoading
    · simp only [Bool.false_eq_true, if_false]
      split <;> rfl
    · rfl
  rw [hB, hC]
  rfl

theorem definesOf_macosBlock (t : Target) :
    definesOf (macosBlock t) =
      (if t.os = .macos ∧ t.aarch64 = true
        then [("CMAKE_OSX_ARCHITECTURES", "arm64")] else []) := by
  rw [macosBlock]
  split <;> rfl

theorem definesOf_featureBlock (f : Features) :
    definesOf (featureBlock f) =
      (if f.mkl then [("WITH_MKL", "ON")] else [])
      ++ (if f.openblas then [("WITH_OPENBLAS", "ON")] else [])
      ++ (if f.ruy then [("WITH_RUY", "ON")] else [])
      ++ (if f.accelerate then [("WITH_ACCELERATE", "ON")] else [])
      ++ (if f.tensorParallel then [("WITH_TENSOR_PARALLEL", "ON")] else [])
      ++ (if f.dnnl then [("WITH_DNNL", "ON")] else [])
      ++ (if f.openmpRuntime then [("OPENMP_RUNTIME", "COMP")] else [])
      ++ (if f.flashAttention then [("WITH_FLASH_ATTN", "ON")] else []) := by
  rw [featureBlock]
  rw [definesOf_append, definesOf_append, definesOf_append,
    definesOf_append, definesOf_append, definesOf_append, definesOf_append]
  cases f.mkl <;> cases f.openblas <;> cases f.ruy <;> cases f.accelerate <;>
    cases f.tensorParallel <;> cases f.dnnl <;> cases f.openmpRuntime <;>
    cases f.flashAttention <;> rfl

theorem definesOf_renderDirective (ds : List Directive) :
    definesOf (ds.map renderDirective) = [] := by
  simp only [definesOf, List.filterMap_map]
  rw [List.filterMap_eq_nil_iff]
  intro d hd
  cases d <;> rfl

theorem definesOf_postTrace (t : Target) (f : Features)
    (entries : List (Except Unit Entry)) :
    definesOf (postTrace t f entries) =
      definesOf (macosBlock t) ++ definesOf (featureBlock f) := by
  rw [postTrace, definesOf_append, definesOf_append, definesOf_append,
    definesOf_append, definesOf_renderDirective]
  simp [definesOf]

theorem cudaBlock_define_keys (t : Target) (f : Features) (root : String) :
    ∀ kv ∈ definesOf (cudaBlock t f root),
      kv.1 = "WITH_CUDA" ∨ kv.1 = "CUDA_TOOLKIT_ROOT_DIR" ∨
      kv.1 = "WITH_CUDNN" ∨ kv.1 = "CUDA_DYNAMIC_LOADING" := by
  intro kv hkv
  rw [definesOf_cudaBlock] at hkv
  rcases List.mem_append.mp hkv with hkv | hkv
  · rcases List.mem_append.mp hkv with hkv | hkv
    · rcases List.mem_cons.mp hkv with h | h
      · rw [h]
        tauto
      · rcases List.mem_singleton.mp h with h
        rw [h]
        tauto
    · split at hkv
      · rcases List.mem_singleton.mp hkv with h
        rw [h]
        tauto
      · cases hkv
  · split at hkv
    · rcases List.mem_singleton.mp hkv with h
      rw [h]
      tauto
    · cases hkv

theorem definesOf_mainTrace (t : Target) (f : Features) (env : Env)
    (isFile : String → Bool) (entries : List (Except Unit Entry))
    (h : f.cuda = true → (cuda_root env isFile).isSome = true) :
    ∃ cudaDefs : List (String × String),
      (∀ kv ∈ cudaDefs,
        kv.1 = "WITH_CUDA" ∨ kv.1 = "CUDA_TOOLKIT_ROOT_DIR" ∨
        kv.1 = "WITH_CUDNN" ∨ kv.1 = "CUDA_DYNAMIC_LOADING") ∧
      definesOf (mainTrace t f env isFile entries) =
        [("BUILD_CLI", "OFF"), ("BUILD_SHARED_LIBS", "OFF"),
         ("WITH_MKL", "OFF"), ("OPENMP_RUNTIME", "NONE"),
         ("CMAKE_POLICY_VERSION_MINIMUM", "3.5")]
        ++ cudaDefs ++ definesOf (macosBlock t)
        ++ definesOf (featureBlock f) := by
  cases hc : f.cuda
  · refine ⟨[], by simp, ?_⟩
    simp only [mainTrace, hc, Bool.false_eq_true, if_false]
    rw [definesOf_append, definesOf_preTrace, definesOf_postTrace]
    simp
  · obtain ⟨root, hroot⟩ := Option.isSome_iff_exists.mp (h hc)
    refine ⟨definesOf (cudaBlock t f root), cudaBlock_define_keys t f root,
      ?_⟩
    simp only [mainTrace, hc, if_true, hroot]
    rw [definesOf_append, definesOf_append, definesOf_preTrace,
      definesOf_postTrace]
    simp

/-- C3: the cmake configuration is seeded with the fixed baseline (its first
five definitions are BUILD_CLI OFF, BUILD_SHARED_LIBS OFF, WITH_MKL OFF,
OPENMP_RUNTIME NONE, CMAKE_POLICY_VERSION_MINIMUM 3.5) and then extended by
each enabled flag in source order, later writers of the same key winning:
for every flag combination the effective WITH_MKL is ON exactly when the mkl
flag is set (otherwise the baseline OFF stands), the effective
OPENMP_RUNTIME is COMP exactly when the openmp-runtime flag is set
(otherwise NONE), and BUILD_SHARED_LIBS stays OFF; the mapping is a pure
function of target, flags, environment and filesystem, so repeated runs with
the same inputs give the same configuration. -/
theorem c3_baseline_then_flags (t : Target) (f : Features) (env : Env)
    (isFile : String → Bool) (entries : List (Except Unit Entry))
    (h : f.cuda = true → (cuda_root env isFile).isSome = true) :
    (definesOf (mainTrace t f env isFile entries)).take 5 =
      [("BUILD_CLI", "OFF"), ("BUILD_SHARED_LIBS", "OFF"),
       ("WITH_MKL", "OFF"), ("OPENMP_RUNTIME", "NONE"),
       ("CMAKE_POLICY_VERSION_MINIMUM", "3.5")]
  ∧ configValue "WITH_MKL" (mainTrace t f env isFile entries) =
      some (if f.mkl then "ON" else "OFF")
  ∧ configValue "OPENMP_RUNTIME" (mainTrace t f env isFile entries) =
      some (if f.openmpRuntime then "COMP" else "NONE")
  ∧ configValue "BUILD_SHARED_LIBS" (mainTrace t f env isFile entries) =
      some "OFF" := by
  obtain ⟨cds, hkeys, hdef⟩ := definesOf_mainTrace t f env isFile entries h
  have hflt : ∀ key : String, key ≠ "WITH_CUDA" → key ≠ "CUDA_TOOLKIT_ROOT_DIR" →
      key ≠ "WITH_CUDNN" → key ≠ "CUDA_DYNAMIC_LOADING" →
      cds.filter (fun kv => kv.1 == key) = [] := by
    intro key h1 h2 h3 h4
    rw [List.filter_eq_nil_iff]
    intro kv hkv
    rcases hkeys kv hkv with h5 | h5 | h5 | h5 <;>
      simp [h5, Ne.symm h1, Ne.symm h2, Ne.symm h3, Ne.symm h4]
  refine ⟨?_, ?_, ?_, ?_⟩
  · rw [hdef]
    rfl
  · rw [configValue, hdef, definesOf_macosBlock, definesOf_featureBlock]
    simp only [List.filter_append, hflt "WITH_MKL" (by decide) (by decide)
      (by decide) (by decide), List.append_assoc]
    cases f.mkl <;>
      simp [apply_ite (List.filter fun kv : String × String => kv.1 == "WITH_MKL")]
  · rw [configValue, hdef, definesOf_macosBlock, definesOf_featureBlock]
    simp only [List.filter_append, hflt "OPENMP_RUNTIME" (by decide)
      (by decide) (by decide) (by decide), List.append_assoc]
    cases f.openmpRuntime <;>
      simp [apply_ite (List.filter fun kv : String × String => kv.1 == "OPENMP_RUNTIME")]
  · rw [configValue, hdef, definesOf_macosBlock, definesOf_featureBlock]
    simp only [List.filter_append, hflt "BUILD_SHARED_LIBS" (by decide)
      (by decide) (by decide) (by decide), List.append_assoc]
    simp [apply_ite (List.filter fun kv : String × String => kv.1 == "BUILD_SHARED_LIBS")]

/-! ### Which blocks of the trace contain the build, bridge and toolchain
actions -/

/-- The actions C2/C8 track: the cmake build invocation, the bridge
compilation, the toolchain mutations of the cmake builder, and a panic. -/
def specialAct : Act → Bool
  | .cmakeBuild => true
  | .bridgeCompile _ => true
  | .cmakeStaticCrt _ => true
  | .cmakeCxxflag _ => true
  | .fatal _ => true
  | _ => false

theorem add_search_paths_not_special (sep : Char) (env : Env) (key : String) :
    ∀ a ∈ add_search_paths sep env key, specialAct a = false := by
  intro a ha
  cases henv : env key <;> rw [add_search_paths, henv] at ha
  · rcases List.mem_singleton.mp ha with h
    subst h
    rfl
  · rcases List.mem_cons.mp ha with h | h
    · subst h
      rfl
    · obtain ⟨x, _, hx⟩ := List.mem_map.mp h
      subst hx
      rfl

theorem baselineDefines_not_special :
    ∀ a ∈ baselineDefines, specialAct a = false := by
  intro a ha
  simp only [baselineDefines] at ha
  simp at ha
  rcases ha with h | h | h | h | h <;> subst h <;> rfl

theorem cudaBlock_not_special (t : Target) (f : Features) (root : String) :
    ∀ a ∈ cudaBlock t f root, specialAct a = false := by
  intro a ha
  rw [cudaBlock] at ha
  rcases List.mem_append.mp ha with h | h
  · rcases List.mem_append.mp h with h | h
    · simp at h
      rcases h with h | h | h | h | h | h <;> subst h <;> rfl
    · split at h
      · simp at h
        rcases h with h | h <;> subst h <;> rfl
      · cases h
  · split at h
    · rcases List.mem_singleton.mp h with h
      subst h
      rfl
    · split at h
      · simp at h
        rcases h with h | h <;> subst h <;> rfl
      · simp at h
        rcases h with h | h | h <;> subst h <;> rfl

theorem macosBlock_not_special (t : Target) :
    ∀ a ∈ macosBlock t, specialAct a = false := by
  intro a ha
  rw [macosBlock] at ha
  split at ha
  · rcases List.mem_singleton.mp ha with h
    subst h
    rfl
  · cases ha

theorem featureBlock_not_special (f : Features) :
    ∀ a ∈ featureBlock f, specialAct a = false := by
  intro a ha
  rw [featureBlock] at ha
  simp only [List.mem_append] at ha
  rcases ha with ((((((h | h) | h) | h) | h) | h) | h) | h <;>
    split at h <;> fin_cases h <;> rfl

theorem walkActs_not_special (p : Platform)
    (entries : List (Except Unit Entry)) :
    ∀ a ∈ (link_libraries p entries).map renderDirective,
      specialAct a = false := by
  intro a ha
  obtain ⟨d, hd, hda⟩ := List.mem_map.mp ha
  subst hda
  cases d with
  | searchDir dir => rfl
  | staticLib n => rfl
  | sliceFault => exact absurd hd (sliceFault_not_mem_linkLoop p _ none)

theorem windowsBlock_special_mem (t : Target) (env : Env) (a : Act)
    (hs : specialAct a = true) :
    a ∈ windowsBlock t env ↔
      t.os = .windows ∧
        (a = .cmakeStaticCrt true ∨ a = .cmakeCxxflag "/EHsc") := by
  rw [windowsBlock]
  split <;> rename_i hw
  · constructor
    · intro ha
      rcases List.mem_append.mp ha with h | h
      · split at h
        · rcases List.mem_singleton.mp h with h
          subst h
          exact absurd hs (by decide)
        · cases h
      · fin_cases h
        · exact absurd hs (by decide)
        · exact absurd hs (by decide)
        · exact ⟨hw, Or.inr rfl⟩
        · exact ⟨hw, Or.inl rfl⟩
    · rintro ⟨_, h | h⟩ <;> subst h <;>
        exact List.mem_append.mpr (Or.inr (by simp))
  · constructor
    · intro ha
      cases ha
    · rintro ⟨hw2, _⟩
      exact absurd hw2 hw

theorem preTrace_special_mem (t : Target) (env : Env) (a : Act)
    (hs : specialAct a = true) :
    a ∈ preTrace t env ↔
      t.os = .windows ∧
        (a = .cmakeStaticCrt true ∨ a = .cmakeCxxflag "/EHsc") := by
  rw [preTrace]
  constructor
  · intro ha
    rcases List.mem_append.mp ha with h | h
    · rcases List.mem_append.mp h with h | h
      · rcases List.mem_append.mp h with h | h
        · rcases List.mem_append.mp h with h | h
          · fin_cases h <;> exact absurd hs (by decide)
          · have hfalse := add_search_paths_not_special _ env "LIBRARY_PATH" a h
            rw [hs] at hfalse
            exact Bool.noConfusion hfalse
        · have hfalse :=
            add_search_paths_not_special _ env "CMAKE_LIBRARY_PATH" a h
          rw [hs] at hfalse
          exact Bool.noConfusion hfalse
      · have hfalse := baselineDefines_not_special a h
        rw [hs] at hfalse
        exact Bool.noConfusion hfalse
    · exact (windowsBlock_special_mem t env a hs).mp h
  · intro h
    exact List.mem_append.mpr
      (Or.inr ((windowsBlock_special_mem t env a hs).mpr h))

theorem postTrace_special_mem (t : Target) (f : Features)
    (entries : List (Except Unit Entry)) (a : Act)
    (hs : specialAct a = true) :
    a ∈ postTrace t f entries ↔
      a = .cmakeBuild ∨ a = .bridgeCompile (bridgeCfg t) := by
  rw [postTrace]
  constructor
  · intro ha
    rcases List.mem_append.mp ha with h | h
    · rcases List.mem_append.mp h with h | h
      · rcases List.mem_append.mp h with h | h
        · rcases List.mem_append.mp h with h | h
          · have hfalse := macosBlock_not_special t a h
            rw [hs] at hfalse
            exact Bool.noConfusion hfalse
          · have hfalse := featureBlock_not_special f a h
            rw [hs] at hfalse
            exact Bool.noConfusion hfalse
        · rcases List.mem_singleton.mp h with h
          subst h
          exact Or.inl rfl
      · have hfalse := walkActs_not_special t.platform entries a h
        rw [hs] at hfalse
        exact Bool.noConfusion hfalse
    · rcases List.mem_singleton.mp h with h
      subst h
      exact Or.inr rfl
  · rintro (h | h) <;> subst h <;> simp

theorem mainTrace_special_mem (t : Target) (f : Features) (env : Env)
    (isFile : String → Bool) (entries : List (Except Unit Entry))
    (h : f.cuda = true → (cuda_root env isFile).isSome = true) (a : Act)
    (hs : specialAct a = true) :
    a ∈ mainTrace t f env isFile entries ↔
      (t.os = .windows ∧
        (a = .cmakeStaticCrt true ∨ a = .cmakeCxxflag "/EHsc"))
      ∨ a = .cmakeBuild ∨ a = .bridgeCompile (bridgeCfg t) := by
  cases hc : f.cuda
  · have hm : mainTrace t f env isFile entries =
        preTrace t env ++ postTrace t f entries := by
      simp only [mainTrace, hc, Bool.false_eq_true, if_false]
    rw [hm]
    simp only [List.mem_append, preTrace_special_mem t env a hs,
      postTrace_special_mem t f entries a hs]
  · obtain ⟨root, hroot⟩ := Option.isSome_iff_exists.mp (h hc)
    have hm : mainTrace t f env isFile entries =
        preTrace t env ++ (cudaBlock t f root ++ postTrace t f entries) := by
      simp only [mainTrace, hc, if_true, hroot]
    rw [hm]
    simp only [List.mem_append, preTrace_special_mem t env a hs,
      postTrace_special_mem t f entries a hs]
    constructor
    · rintro (h1 | h1 | h1)
      · exact Or.inl h1
      · have hfalse := cudaBlock_not_special t f root a h1
        rw [hs] at hfalse
        exact Bool.noConfusion hfalse
      · exact Or.inr h1
    · rintro (h1 | h1)
      · exact Or.inl h1
      · exact Or.inr (Or.inr h1)

/-- C2: with the cuda flag enabled and no toolkit root found, the script
panics with the descriptive message right after the prelude: the trace is
the prelude followed by the fatal error, the external build is never
invoked, and neither is the bridge compilation. -/
theorem c2_cuda_missing_fails_fast (t : Target) (f : Features) (env : Env)
    (isFile : String → Bool) (entries : List (Except Unit Entry))
    (hcuda : f.cuda = true) (hroot : cuda_root env isFile = none) :
    mainTrace t f env isFile entries =
      preTrace t env ++ [Act.fatal "CUDA_TOOLKIT_ROOT_DIR is not specified"]
  ∧ Act.cmakeBuild ∉ mainTrace t f env isFile entries
  ∧ ∀ cfg, Act.bridgeCompile cfg ∉ mainTrace t f env isFile entries := by
  have hm : mainTrace t f env isFile entries =
      preTrace t env ++
        [Act.fatal "CUDA_TOOLKIT_ROOT_DIR is not specified"] := by
    simp only [mainTrace, hcuda, if_true, hroot]
  refine ⟨hm, ?_, ?_⟩
  · rw [hm]
    intro hmem
    rcases List.mem_append.mp hmem with h | h
    · rcases (preTrace_special_mem t env Act.cmakeBuild rfl).mp h with
        ⟨_, h1 | h1⟩ <;> cases h1
    · rcases List.mem_singleton.mp h with h1
      cases h1
  · intro cfg
    rw [hm]
    intro hmem
    rcases List.mem_append.mp hmem with h | h
    · rcases (preTrace_special_mem t env (Act.bridgeCompile cfg) rfl).mp h
        with ⟨_, h1 | h1⟩ <;> cases h1
    · rcases List.mem_singleton.mp h with h1
      cases h1

/-- A concrete non-Windows target for witnesses. -/
def t0 : Target := ⟨.linux, false⟩

/-- All capability flags disabled. -/
def f0 : Features :=
  ⟨false, false, false, false, false, false, false, false, false, false,
   false⟩

/-- Only the cuda flag enabled. -/
def fCuda : Features :=
  ⟨true, false, false, false, false, false, false, false, false, false,
   false⟩

/-- An empty environment. -/
def envNone : Env := fun _ => none

/-- A filesystem with no files. -/
def noFile : String → Bool := fun _ => false

/-- Witness for C2: on a bare Linux box with the cuda flag and nothing
installed, the trace ends in the fatal message and no build is invoked. -/
theorem c2_witness :
    mainTrace t0 fCuda envNone noFile [] =
      preTrace t0 envNone ++
        [Act.fatal "CUDA_TOOLKIT_ROOT_DIR is not specified"]
  ∧ Act.cmakeBuild ∉ mainTrace t0 fCuda envNone noFile []
  ∧ ∀ cfg, Act.bridgeCompile cfg ∉ mainTrace t0 fCuda envNone noFile [] :=
  c2_cuda_missing_fails_fast t0 fCuda envNone noFile [] rfl (by decide)

/-- Witness for C3: the all-flags-off configuration on Linux keeps the
baseline values. -/
theorem c3_witness :
    (definesOf (mainTrace t0 f0 envNone noFile [])).take 5 =
      [("BUILD_CLI", "OFF"), ("BUILD_SHARED_LIBS", "OFF"),
       ("WITH_MKL", "OFF"), ("OPENMP_RUNTIME", "NONE"),
       ("CMAKE_POLICY_VERSION_MINIMUM", "3.5")]
  ∧ configValue "WITH_MKL" (mainTrace t0 f0 envNone noFile []) =
      some (if f0.mkl then "ON" else "OFF")
  ∧ configValue "OPENMP_RUNTIME" (mainTrace t0 f0 envNone noFile []) =
      some (if f0.openmpRuntime then "COMP" else "NONE")
  ∧ configValue "BUILD_SHARED_LIBS" (mainTrace t0 f0 envNone noFile []) =
      some "OFF" :=
  c3_baseline_then_flags t0 f0 envNone noFile []
    (fun hc => absurd hc (by decide))

/-- Whether the bridge compiler accepts `/EHsc`.  Modelled from the
toolchain: `/EHsc` is an MSVC flag, so `flag_if_supported` applies it
exactly on the Windows (MSVC) toolchain. -/
def ehscSupported (t : Target) : Bool := t.os = .windows

/-- C8: for any fixed platform and every capability-flag combination, the
platform-conditional toolchain flags of the external cmake build (static
CRT, /EHsc) coincide with those of the bridge compilation: the cmake builder
gets static CRT and /EHsc exactly on Windows, the bridge is compiled with
`static_crt(windows)` and an /EHsc request that the toolchain honors exactly
on Windows, so the two artifacts' toolchain configurations agree. -/
theorem c8_toolchain_consistency (t : Target) (f : Features) (env : Env)
    (isFile : String → Bool) (entries : List (Except Unit Entry))
    (h : f.cuda = true → (cuda_root env isFile).isSome = true) :
    ((Act.cmakeStaticCrt true ∈ mainTrace t f env isFile entries) ↔
      t.os = .windows)
  ∧ ((Act.cmakeCxxflag "/EHsc" ∈ mainTrace t f env isFile entries) ↔
      t.os = .windows)
  ∧ Act.bridgeCompile (bridgeCfg t) ∈ mainTrace t f env isFile entries
  ∧ ((bridgeCfg t).staticCrt = true ↔
      Act.cmakeStaticCrt true ∈ mainTrace t f env isFile entries)
  ∧ (("/EHsc" ∈ (bridgeCfg t).flagIfSupported ∧ ehscSupported t = true) ↔
      Act.cmakeCxxflag "/EHsc" ∈ mainTrace t f env isFile entries) := by
  have h1 := mainTrace_special_mem t f env isFile entries h
    (Act.cmakeStaticCrt true) rfl
  have h2 := mainTrace_special_mem t f env isFile entries h
    (Act.cmakeCxxflag "/EHsc") rfl
  have h3 := mainTrace_special_mem t f env isFile entries h
    (Act.bridgeCompile (bridgeCfg t)) rfl
  have hA : (Act.cmakeStaticCrt true ∈ mainTrace t f env isFile entries) ↔
      t.os = .windows := by
    rw [h1]
    simp
  have hB : (Act.cmakeCxxflag "/EHsc" ∈ mainTrace t f env isFile entries) ↔
      t.os = .windows := by
    rw [h2]
    simp
  refine ⟨hA, hB, ?_, ?_, ?_⟩
  · exact h3.mpr (Or.inr (Or.inr rfl))
  · rw [hA]
    simp only [bridgeCfg, decide_eq_true_eq]
  · rw [hB]
    simp only [bridgeCfg, ehscSupported, List.mem_singleton,
      decide_eq_true_eq, true_and]

/-- Witness for C8 on the all-flags-off Linux configuration. -/
theorem c8_witness :
    ((Act.cmakeStaticCrt true ∈ mainTrace t0 f0 envNone noFile []) ↔
      t0.os = .windows)
  ∧ ((Act.cmakeCxxflag "/EHsc" ∈ mainTrace t0 f0 envNone noFile []) ↔
      t0.os = .windows)
  ∧ Act.bridgeCompile (bridgeCfg t0) ∈ mainTrace t0 f0 envNone noFile []
  ∧ ((bridgeCfg t0).staticCrt = true ↔
      Act.cmakeStaticCrt true ∈ mainTrace t0 f0 envNone noFile [])
  ∧ (("/EHsc" ∈ (bridgeCfg t0).flagIfSupported ∧ ehscSupported t0 = true) ↔
      Act.cmakeCxxflag "/EHsc" ∈ mainTrace t0 f0 envNone noFile []) :=
  c8_toolchain_consistency t0 f0 envNone noFile []
    (fun hc => absurd hc (by decide))

/-- The CUDA math-library names of lines 74-79. -/
def cudaMathLibNames : List String :=
  ["cublas", "cublasLt", "cublas_static", "cublasLt_static", "culibos"]

/-- The static link directives of a trace naming a CUDA math library. -/
def mathStaticLinks (tr : List Act) : List String :=
  tr.filterMap fun a =>
    match a with
    | .linkLib .static n =>
        if cudaMathLibNames.contains n then some n else none
    | _ => none

/-- C5: with the cuda flag enabled, the cuda block links no static CUDA math
library when cuda-dynamic-loading is set (only the dynamic-loading
configuration key is added), and otherwise links exactly cublas and cublasLt
on Windows versus cublas_static, cublasLt_static and culibos elsewhere; the
block sits verbatim in the trace once a root was found. -/
theorem c5_cuda_math_linking (t : Target) (f : Features) (root : String)
    (env : Env) (isFile : String → Bool)
    (entries : List (Except Unit Entry)) (hcuda : f.cuda = true) :
    (f.cudaDynamicLoading = true →
      mathStaticLinks (cudaBlock t f root) = []
      ∧ Act.cmakeDefine "CUDA_DYNAMIC_LOADING" "ON" ∈ cudaBlock t f root)
  ∧ (f.cudaDynamicLoading = false →
      mathStaticLinks (cudaBlock t f root) =
        (if t.os = .windows then ["cublas", "cublasLt"]
         else ["cublas_static", "cublasLt_static", "culibos"])
      ∧ Act.cmakeDefine "CUDA_DYNAMIC_LOADING" "ON" ∉ cudaBlock t f root)
  ∧ (cuda_root env isFile = some root →
      mainTrace t f env isFile entries =
        preTrace t env ++ (cudaBlock t f root ++ postTrace t f entries)) := by
  refine ⟨?_, ?_, ?_⟩
  · intro hdyn
    constructor
    · cases hc : f.cudnn <;>
        simp [mathStaticLinks, cudaBlock, hdyn, hc,
          List.filterMap_append] <;> decide
    · cases hc : f.cudnn <;> simp [cudaBlock, hdyn, hc]
  · intro hdyn
    constructor
    · cases hc : f.cudnn <;> by_cases hw : t.os = .windows <;>
        simp [mathStaticLinks, cudaBlock, hdyn, hc, hw,
          List.filterMap_append] <;> decide
    · cases hc : f.cudnn <;> by_cases hw : t.os = .windows <;>
        simp [cudaBlock, hdyn, hc, hw]
  · intro hroot
    simp only [mainTrace, hcuda, if_true, hroot]

/-- Witness for C5 with cuda and cuda-dynamic-loading enabled on Linux. -/
theorem c5_witness :
    mathStaticLinks
        (cudaBlock t0
          ⟨true, false, true, false, false, false, false, false, false,
           false, false⟩ "/toolkit") = []
    ∧ Act.cmakeDefine "CUDA_DYNAMIC_LOADING" "ON" ∈
        cudaBlock t0
          ⟨true, false, true, false, false, false, false, false, false,
           false, false⟩ "/toolkit" :=
  (c5_cuda_math_linking t0
    ⟨true, false, true, false, false, false, false, false, false, false,
     false⟩ "/toolkit" envNone noFile [] rfl).1 rfl
